import Mathlib

/-!
# Traversal defaults, path-segment coercion and the CrazyTest printers

A shallow embedding of

* `vendor/github.com/ipld/go-ipld-prime/traversal/common.go`
  (`Config.init`, `Progress.init`, `asPathSegment`), and
* `vendor/github.com/ipfs/go-ipfs/core/commands/crazytest.go`
  (`crazyTestPrintPeer`, `crazyTestPrintSelf`),

followed by the properties proved about them.

Conventions of the embedding.

* A Go interface value or pointer that may be `nil` is an `Option`.
* A Go method that returns `(value, error)` and whose error the caller drops
  is a pair; one whose error the caller inspects is an `Except`.
* A panic or a nil dereference is a `Fault`, returned through `Except`.
* A struct mutated through a pointer receiver is passed in and returned.
-/

/-- A Go `error` value, identified by its message. -/
structure GoError where
  msg : String
  deriving DecidableEq, Repr

namespace Traversal

/-! ## Data model -/

/-- The kind tag of a node (`datamodel.Kind`), including its zero value. -/
inductive Kind where
  | Invalid
  | Map
  | List
  | Null
  | Bool
  | Int
  | Float
  | String
  | Bytes
  | Link
  deriving DecidableEq, Repr

/-- Abnormal termination of a call: a nil dereference, or the panic raised by
`asPathSegment`, whose payload is built from the offending kind. -/
inductive Fault where
  | nilDereference
  | cannotGetPathSegment (k : Kind)
  deriving DecidableEq, Repr

/-- Modelled from the spec: the `PathSegment` type and its two constructors
`PathSegmentOfString` and `PathSegmentOfInt` are declared outside the sources
at hand; a PathSegment is either a string key or an integer index. -/
inductive PathSegment where
  | PathSegmentOfString (s : String)
  | PathSegmentOfInt (i : Int)
  deriving DecidableEq, Repr

/-- An opaque `datamodel.NodePrototype` handle. -/
structure NodePrototype where
  name : String
  deriving DecidableEq, Repr

/-- An opaque, comparable `datamodel.Link`. -/
structure Link where
  cid : String
  deriving DecidableEq, Repr

/-- The `datamodel.Node` methods that the embedded functions call: `Kind()`,
and `AsString()` / `AsInt()` with their `(value, error)` results.  The `int64`
of `AsInt()` is an integer; no arithmetic is done on it. -/
structure NodeMethods where
  Kind : Kind
  AsString : String × Option GoError
  AsInt : Int × Option GoError
  deriving DecidableEq, Repr

/-- A non-nil `datamodel.Node`.  A `typed` node additionally implements
`schema.TypedNode`, so it has a `Representation()`, itself a node.  Either
form may implement `schema.TypedLinkNode`; `linkTarget` is then `some p`, with
`p` the (possibly nil) result of `LinkTargetNodePrototype()`. -/
inductive Node where
  | plain (m : NodeMethods) (linkTarget : Option (Option NodePrototype))
  | typed (m : NodeMethods) (linkTarget : Option (Option NodePrototype))
      (representation : Node)
  deriving Repr

/-- The data-model methods of a node. -/
def Node.methods : Node → NodeMethods
  | .plain m _ => m
  | .typed m _ _ => m

/-- The type assertion `n.(schema.TypedNode)` followed by `Representation()`:
`none` when the assertion fails. -/
def Node.asTypedNode : Node → Option Node
  | .plain _ _ => none
  | .typed _ _ rep => some rep

/-- The type assertion `n.(schema.TypedLinkNode)` followed by
`LinkTargetNodePrototype()`: `none` when the assertion fails. -/
def Node.asTypedLinkNode : Node → Option (Option NodePrototype)
  | .plain _ lt => lt
  | .typed _ lt _ => lt

/-- Modelled from the spec: `linking.LinkContext` is declared outside the
sources at hand; it carries the node holding the link, the parent node and the
path at the point of discovery.  `LinkNode` is an interface and may be nil. -/
structure LinkContext where
  LinkPath : List PathSegment
  LinkNode : Option Node
  ParentNode : Option Node

/-- A `context.Context`; `background` is the value of `context.Background()`. -/
inductive Context where
  | background
  | custom (tag : Nat)
  deriving DecidableEq, Repr

/-- The function type `LinkTargetNodePrototypeChooser`, with Go's two results. -/
abbrev Chooser := Link → LinkContext → Option NodePrototype × Option GoError

/-- The link loading callback of a Configuration. -/
abbrev Loader := Link → LinkContext → Except GoError Node

/-- Modelled from the spec: the `Config` struct is declared outside the
sources at hand.  The fields that `init` names keep their Go names; the link
loader and the link-depth limit follow the Configuration of the spec.  Every
field that Go can leave at its zero value `nil` is an `Option`. -/
structure Config where
  Ctx : Option Context
  LinkLoader : Option Loader
  LinkTargetNodePrototypeChooser : Option Chooser
  LinkVisitOnlyOnce : Bool
  LinkDepthLimit : Int

/-- The zero value `Config{}`. -/
def Config.zero : Config :=
  { Ctx := none
    LinkLoader := none
    LinkTargetNodePrototypeChooser := none
    LinkVisitOnlyOnce := false
    LinkDepthLimit := 0 }

/-- Modelled from the spec: the `Progress` struct is declared outside the
sources at hand.  `Cfg` is a pointer to a Config (nil is `none`), `SeenLinks`
is a Go map used as a set (the nil map is `none`). -/
structure Progress where
  Cfg : Option Config
  Path : List PathSegment
  LinkDepth : Int
  SeenLinks : Option (Finset Link)

/-! ## The functions of `traversal/common.go` -/

/-- The function literal that `Config.init` installs as the prototype chooser. -/
def defaultChooser : Chooser := fun _lnk lnkCtx =>
  match lnkCtx.LinkNode with
  | some nd =>
    match nd.asTypedLinkNode with
    | some proto => (proto, none)
    | none => (none, some ⟨"no LinkTargetNodePrototypeChooser configured"⟩)
  | none => (none, some ⟨"no LinkTargetNodePrototypeChooser configured"⟩)

/-- The body of `func (tc *Config) init()` on the struct that `tc` points to. -/
def Config.init (tc : Config) : Config :=
  let tc := if tc.Ctx.isNone then { tc with Ctx := some Context.background } else tc
  let tc :=
    if tc.LinkTargetNodePrototypeChooser.isNone then
      { tc with LinkTargetNodePrototypeChooser := some defaultChooser }
    else tc
  tc

/-- The call `tc.init()` through a pointer: reading `tc.Ctx` faults when `tc`
is nil. -/
def Config.initAt (tc : Option Config) : Except Fault Config :=
  match tc with
  | none => .error Fault.nilDereference
  | some c => .ok c.init

/-- The method `func (prog *Progress) init()`. -/
def Progress.init (prog : Progress) : Except Fault Progress :=
  let prog := if prog.Cfg.isNone then { prog with Cfg := some Config.zero } else prog
  match Config.initAt prog.Cfg with
  | .error f => .error f
  | .ok cfg =>
    let prog := { prog with Cfg := some cfg }
    if cfg.LinkVisitOnlyOnce then
      .ok { prog with SeenLinks := some ∅ }
    else
      .ok prog

/-- The function `asPathSegment`. -/
def asPathSegment (n : Node) : Except Fault PathSegment :=
  let n := match n.asTypedNode with
    | some rep => rep
    | none => n
  match n.methods.Kind with
  | Kind.String => .ok (PathSegment.PathSegmentOfString n.methods.AsString.1)
  | Kind.Int => .ok (PathSegment.PathSegmentOfInt n.methods.AsInt.1)
  | k => .error (Fault.cannotGetPathSegment k)

/-- The resolved view of a node in the words of the spec: its representation
if the node is schema-typed, otherwise the node itself. -/
def resolvedView : Node → Node
  | .typed _ _ rep => rep
  | .plain m lt => .plain m lt


/-- Whether the Configuration that a Progress points to has `LinkVisitOnlyOnce`
set; a Progress without a Configuration has it unset. -/
def Progress.visitOnlyOnce (prog : Progress) : Bool :=
  match prog.Cfg with
  | some c => c.LinkVisitOnlyOnce
  | none => false

/-- Whether the `SeenLinks` of a Progress records the link `l`; reading a nil
map finds nothing. -/
def Progress.hasSeen (prog : Progress) (l : Link) : Bool :=
  match prog.SeenLinks with
  | some s => decide (l ∈ s)
  | none => false

/-- The error that the default prototype chooser returns. -/
def noChooserError : GoError :=
  ⟨"no LinkTargetNodePrototypeChooser configured"⟩

/-- The kinds that the spec lists as illegal for a key: every kind other than
string and integer that a node of the data model can have. -/
def nonSegmentKinds : List Kind :=
  [Kind.Map, Kind.List, Kind.Float, Kind.Bool, Kind.Bytes, Kind.Link, Kind.Null]

/-! ### Sample values -/

/-- A string-kinded plain node with value `s`. -/
def stringNode (s : String) : Node :=
  .plain { Kind := Kind.String, AsString := (s, none),
           AsInt := (0, some ⟨"wrong kind"⟩) } none

/-- An integer-kinded plain node with value `i`. -/
def intNode (i : Int) : Node :=
  .plain { Kind := Kind.Int, AsString := ("", some ⟨"wrong kind"⟩),
           AsInt := (i, none) } none

/-- A float-kinded plain node, as a map key that a non-conforming map yields. -/
def floatNode : Node :=
  .plain { Kind := Kind.Float, AsString := ("", some ⟨"wrong kind"⟩),
           AsInt := (0, some ⟨"wrong kind"⟩) } none

/-- The in-memory methods of a typed struct: kind map, no scalar value. -/
def structMethods : NodeMethods :=
  { Kind := Kind.Map, AsString := ("", some ⟨"wrong kind"⟩),
    AsInt := (0, some ⟨"wrong kind"⟩) }

/-- The in-memory methods of a typed integer with value 7. -/
def typedIntMethods : NodeMethods :=
  { Kind := Kind.Int, AsString := ("", some ⟨"wrong kind"⟩), AsInt := (7, none) }

/-- A typed struct (in-memory kind map) whose representation is `rep`. -/
def structNode (rep : Node) : Node :=
  .typed structMethods none rep

/-- A typed integer (in-memory kind integer, value 7) whose representation is
`rep`. -/
def typedIntNode (rep : Node) : Node :=
  .typed typedIntMethods none rep

/-- A typed link node that declares `proto` as the prototype of its target. -/
def typedLinkNode (proto : NodePrototype) : Node :=
  .typed { Kind := Kind.Link, AsString := ("", some ⟨"wrong kind"⟩),
           AsInt := (0, some ⟨"wrong kind"⟩) } (some (some proto))
    (.plain { Kind := Kind.Link, AsString := ("", some ⟨"wrong kind"⟩),
              AsInt := (0, some ⟨"wrong kind"⟩) } none)

/-- A Configuration that only enables visit-once. -/
def visitOnceConfig : Config :=
  { Config.zero with LinkVisitOnlyOnce := true }

/-- A Progress in the middle of a visit-once walk: the link `bafy-A` is
already recorded. -/
def midWalkProgress : Progress :=
  { Cfg := some visitOnceConfig.init
    Path := [PathSegment.PathSegmentOfString "a"]
    LinkDepth := 1
    SeenLinks := some {⟨"bafy-A"⟩} }

/-- A fresh Progress without Configuration. -/
def bareProgress : Progress :=
  { Cfg := none, Path := [], LinkDepth := 0, SeenLinks := none }

end Traversal

namespace Commands

/-! ## Data model of `commands/crazytest.go` -/

/-- A byte. -/
abbrev Byte := Fin 256

/-- A Go `string`: an immutable sequence of bytes. -/
abbrev GoString := List Byte

/-- The Go comparison `a < b` on strings: byte-wise lexicographic. -/
def GoString.lt : GoString → GoString → Bool
  | [], [] => false
  | [], _ :: _ => true
  | _ :: _, [] => false
  | a :: as, b :: bs =>
    if a < b then true
    else if b < a then false
    else GoString.lt as bs

/-- Insertion of `s` into a slice, in front of the first element that `s` is
less than. -/
def insertString (s : GoString) : List GoString → List GoString
  | [] => [s]
  | t :: ts => if GoString.lt s t then s :: t :: ts else t :: insertString s ts

/-- The library call `sort.Strings(x)`: `x` sorted in increasing order, with
`x[i] < x[j]` as the only comparison.  Strings that compare equal are equal, so
the sorted slice does not depend on the algorithm; insertion sort stands in
for the library routine. -/
def sortStrings : List GoString → List GoString
  | [] => []
  | s :: ss => insertString s (sortStrings ss)

/-- A `peer.ID`, a string type whose zero value is the empty string. -/
abbrev PeerID := GoString

/-- An opaque public key (`ic.PubKey`). -/
structure PubKey where
  tag : Nat
  deriving DecidableEq, Repr

/-- A private key (`ic.PrivKey`) with the result of its `GetPublic()`. -/
structure PrivKey where
  GetPublic : PubKey
  deriving DecidableEq, Repr

/-- A multiaddr (`ma.Multiaddr`) with the result of its `String()`. -/
structure Multiaddr where
  String : GoString
  deriving DecidableEq, Repr

/-- The struct `peer.AddrInfo`. -/
structure AddrInfo where
  ID : PeerID
  Addrs : List Multiaddr
  deriving DecidableEq, Repr

/-- The two methods of `pstore.Peerstore` that are called; `PubKey` returns a
possibly nil key. -/
structure Peerstore where
  PubKey : PeerID → Option PubKey
  PeerInfo : PeerID → AddrInfo

/-- The method of `ke.KeyEncoder` that is called. -/
structure KeyEncoder where
  FormatID : PeerID → GoString

/-- A libp2p host (`host.Host`). -/
structure Host where
  ID : PeerID
  Addrs : List Multiaddr
  deriving DecidableEq, Repr

/-- The fields of `core.IpfsNode` that are read; `PrivateKey` and `PeerHost`
are interfaces and may be nil. -/
structure IpfsNode where
  Identity : PeerID
  PrivateKey : Option PrivKey
  PeerHost : Option Host
  deriving DecidableEq, Repr

/-- The functions of other packages that the printers call:
`ic.MarshalPublicKey`, `base64.StdEncoding.EncodeToString`,
`peer.AddrInfoToP2pAddrs` and `host.InfoFromHost`. -/
structure Libs where
  MarshalPublicKey : PubKey → Except GoError (List Byte)
  EncodeToString : List Byte → GoString
  AddrInfoToP2pAddrs : AddrInfo → Except GoError (List Multiaddr)
  InfoFromHost : Host → AddrInfo

/-- The struct `CrazyTestOutput`. -/
structure CrazyTestOutput where
  ID : GoString
  PublicKey : GoString
  Addresses : List GoString
  deriving DecidableEq, Repr

/-- The zero value that `new(CrazyTestOutput)` points to. -/
def CrazyTestOutput.zero : CrazyTestOutput :=
  { ID := [], PublicKey := [], Addresses := [] }

/-- How a printer ends without an output: a returned error, or a nil
dereference. -/
inductive Failure where
  | err (e : GoError)
  | nilDereference
  deriving DecidableEq, Repr

/-! ## The functions of `commands/crazytest.go` -/

/-- The loop `for _, a := range addrs { info.Addresses = append(info.Addresses,
a.String()) }`. -/
def appendAddresses (info : CrazyTestOutput) (addrs : List Multiaddr) : CrazyTestOutput :=
  addrs.foldl (fun info a => { info with Addresses := info.Addresses ++ [a.String] }) info

/-- The function `crazyTestPrintPeer`. -/
def crazyTestPrintPeer (libs : Libs) (keyEnc : KeyEncoder) (ps : Peerstore) (p : PeerID) :
    Except Failure CrazyTestOutput :=
  if p = [] then
    .error (Failure.err ⟨"attempted to print nil peer"⟩)
  else
    let info := CrazyTestOutput.zero
    let info := { info with ID := keyEnc.FormatID p }
    let withKey : Except Failure CrazyTestOutput :=
      match ps.PubKey p with
      | some pk =>
        match libs.MarshalPublicKey pk with
        | .error e => .error (Failure.err e)
        | .ok pkb => .ok { info with PublicKey := libs.EncodeToString pkb }
      | none => .ok info
    match withKey with
    | .error f => .error f
    | .ok info =>
      let addrInfo := ps.PeerInfo p
      match libs.AddrInfoToP2pAddrs addrInfo with
      | .error e => .error (Failure.err e)
      | .ok addrs =>
        let info := appendAddresses info addrs
        .ok { info with Addresses := sortStrings info.Addresses }

/-- The function `crazyTestPrintSelf`. -/
def crazyTestPrintSelf (libs : Libs) (keyEnc : KeyEncoder) (node : IpfsNode) :
    Except Failure CrazyTestOutput :=
  let info := CrazyTestOutput.zero
  let info := { info with ID := keyEnc.FormatID node.Identity }
  match node.PrivateKey with
  | none => .error Failure.nilDereference
  | some priv =>
    let pk := priv.GetPublic
    match libs.MarshalPublicKey pk with
    | .error e => .error (Failure.err e)
    | .ok pkb =>
      let info := { info with PublicKey := libs.EncodeToString pkb }
      match node.PeerHost with
      | some h =>
        match libs.AddrInfoToP2pAddrs (libs.InfoFromHost h) with
        | .error e => .error (Failure.err e)
        | .ok addrs =>
          let info := appendAddresses info addrs
          .ok { info with Addresses := sortStrings info.Addresses }
      | none => .ok info

/-- Ascending byte-wise lexicographic order of a slice of strings: of any two
positions, the earlier string equals the later one or precedes it in the
lexicographic order of their bytes. -/
def Ascending (l : List GoString) : Prop :=
  l.Pairwise fun a b => a = b ∨ List.Lex (· < ·) a b

/-! ### Sample values -/

/-- Libraries whose calls all succeed: keys marshal to two bytes, the encoding
is the identity, and the addresses of a peer are returned as they are. -/
def sampleLibs : Libs :=
  { MarshalPublicKey := fun pk => .ok [Fin.ofNat pk.tag, 1]
    EncodeToString := fun b => b
    AddrInfoToP2pAddrs := fun ai => .ok ai.Addrs
    InfoFromHost := fun h => ⟨h.ID, h.Addrs⟩ }

/-- Three addresses, out of order and with a repetition. -/
def sampleAddrs : List Multiaddr :=
  [⟨[47, 105, 112, 54]⟩, ⟨[47, 105, 112, 52]⟩, ⟨[47, 105, 112, 54]⟩]

/-- A peerstore that knows no key and reports `sampleAddrs` for every peer. -/
def samplePeerstore : Peerstore :=
  { PubKey := fun _ => none
    PeerInfo := fun p => ⟨p, sampleAddrs⟩ }

/-- The identity key encoder. -/
def sampleKeyEncoder : KeyEncoder :=
  { FormatID := fun p => p }

/-- The output of `crazyTestPrintPeer` for peer `Q` on the sample values. -/
def samplePeerOutput : CrazyTestOutput :=
  { ID := [81]
    PublicKey := []
    Addresses := [[47, 105, 112, 52], [47, 105, 112, 54], [47, 105, 112, 54]] }

/-- The output of `crazyTestPrintSelf` on the sample node. -/
def sampleSelfOutput : CrazyTestOutput :=
  { ID := [81, 109]
    PublicKey := [5, 1]
    Addresses := [[47, 105, 112, 52], [47, 105, 112, 54], [47, 105, 112, 54]] }

/-- A node with a key and a host that listens on `sampleAddrs`. -/
def sampleNode : IpfsNode :=
  { Identity := [81, 109]
    PrivateKey := some ⟨⟨5⟩⟩
    PeerHost := some ⟨[81, 109], sampleAddrs⟩ }

end Commands

/-! ## Properties of `traversal/common.go` -/

namespace Traversal

/-- C1: for every node whose resolved view has kind string, `asPathSegment`
returns the string PathSegment of that view's string value, and for every node
whose resolved view has kind integer it returns the integer PathSegment of that
view's integer value. -/
theorem asPathSegment_resolved_value (n : Node) :
    ((resolvedView n).methods.Kind = Kind.String →
      asPathSegment n
        = .ok (PathSegment.PathSegmentOfString (resolvedView n).methods.AsString.1)) ∧
    ((resolvedView n).methods.Kind = Kind.Int →
      asPathSegment n
        = .ok (PathSegment.PathSegmentOfInt (resolvedView n).methods.AsInt.1)) := by
  cases n with
  | plain m lt =>
    refine ⟨fun h => ?_, fun h => ?_⟩ <;>
      simp only [resolvedView, Node.methods] at h <;>
      simp [asPathSegment, Node.asTypedNode, Node.methods, resolvedView, h]
  | typed m lt rep =>
    refine ⟨fun h => ?_, fun h => ?_⟩ <;>
      simp only [resolvedView] at h <;>
      simp [asPathSegment, Node.asTypedNode, resolvedView, h]

/-- Witness for C1: a plain string key and a typed struct with an integer
representation. -/
theorem asPathSegment_resolved_value_witness :
    (resolvedView (stringNode "name")).methods.Kind = Kind.String ∧
    asPathSegment (stringNode "name") = .ok (PathSegment.PathSegmentOfString "name") ∧
    (resolvedView (structNode (intNode 3))).methods.Kind = Kind.Int ∧
    asPathSegment (structNode (intNode 3)) = .ok (PathSegment.PathSegmentOfInt 3) :=
  ⟨rfl, (asPathSegment_resolved_value (stringNode "name")).1 rfl, rfl,
    (asPathSegment_resolved_value (structNode (intNode 3))).2 rfl⟩

/-- C2: for schema-typed nodes `asPathSegment` resolves the segment from the
representation view and not from the in-memory view.  Two typed nodes whose
representations agree in kind, in string value when that kind is string, and
in integer value when that kind is integer, get the same outcome whatever their
in-memory methods are; and that outcome is the one the representation fixes:
the string segment of the representation's string value when its kind is
string, the integer segment of its integer value when its kind is integer, and
the panic carrying the representation's kind otherwise. -/
theorem asPathSegment_typed_by_representation
    (m₁ m₂ : NodeMethods) (lt₁ lt₂ : Option (Option NodePrototype)) (r₁ r₂ : Node)
    (hk : r₁.methods.Kind = r₂.methods.Kind)
    (hs : r₁.methods.Kind = Kind.String → r₁.methods.AsString.1 = r₂.methods.AsString.1)
    (hi : r₁.methods.Kind = Kind.Int → r₁.methods.AsInt.1 = r₂.methods.AsInt.1) :
    asPathSegment (.typed m₁ lt₁ r₁) = asPathSegment (.typed m₂ lt₂ r₂) ∧
    (r₁.methods.Kind = Kind.String →
      asPathSegment (.typed m₁ lt₁ r₁)
        = .ok (PathSegment.PathSegmentOfString r₁.methods.AsString.1)) ∧
    (r₁.methods.Kind = Kind.Int →
      asPathSegment (.typed m₁ lt₁ r₁)
        = .ok (PathSegment.PathSegmentOfInt r₁.methods.AsInt.1)) ∧
    (r₁.methods.Kind ≠ Kind.String → r₁.methods.Kind ≠ Kind.Int →
      asPathSegment (.typed m₁ lt₁ r₁)
        = .error (Fault.cannotGetPathSegment r₁.methods.Kind)) := by
  simp only [asPathSegment, Node.asTypedNode]
  rw [← hk]
  cases hkind : r₁.methods.Kind <;> simp [← hs, ← hi, hkind]

/-- Witness for C2: a struct-kinded typed node and an integer-kinded typed node
(in-memory value 7) with the same string representation `k` get the same
outcome, and that outcome is the string segment `k`. -/
theorem asPathSegment_typed_by_representation_witness :
    (stringNode "k").methods.Kind = Kind.String ∧
    asPathSegment (structNode (stringNode "k")) = asPathSegment (typedIntNode (stringNode "k")) ∧
    asPathSegment (structNode (stringNode "k")) = .ok (PathSegment.PathSegmentOfString "k") ∧
    asPathSegment (typedIntNode (stringNode "k")) = .ok (PathSegment.PathSegmentOfString "k") :=
  ⟨rfl,
    (asPathSegment_typed_by_representation structMethods typedIntMethods none none
      (stringNode "k") (stringNode "k") rfl (fun _ => rfl) (fun _ => rfl)).1,
    (asPathSegment_typed_by_representation structMethods typedIntMethods none none
      (stringNode "k") (stringNode "k") rfl (fun _ => rfl) (fun _ => rfl)).2.1 rfl,
    (asPathSegment_typed_by_representation typedIntMethods structMethods none none
      (stringNode "k") (stringNode "k") rfl (fun _ => rfl) (fun _ => rfl)).2.1 rfl⟩

/-- C3: `asPathSegment` panics exactly when the kind of the resolved view is
neither string nor integer; it returns a segment exactly when that kind is
string or integer; in particular it panics for each of the kinds map, list,
float, boolean, bytes, link and null. -/
theorem asPathSegment_panics_iff (n : Node) :
    ((∃ f, asPathSegment n = .error f) ↔
      ((resolvedView n).methods.Kind ≠ Kind.String ∧
        (resolvedView n).methods.Kind ≠ Kind.Int)) ∧
    ((∃ seg, asPathSegment n = .ok seg) ↔
      ((resolvedView n).methods.Kind = Kind.String ∨
        (resolvedView n).methods.Kind = Kind.Int)) ∧
    ((resolvedView n).methods.Kind ∈ nonSegmentKinds →
      asPathSegment n = .error (Fault.cannotGetPathSegment (resolvedView n).methods.Kind)) := by
  cases n with
  | plain m lt =>
    simp only [resolvedView, Node.methods, asPathSegment, Node.asTypedNode, nonSegmentKinds]
    cases hkind : m.Kind <;> simp
  | typed m lt rep =>
    simp only [resolvedView, asPathSegment, Node.asTypedNode, nonSegmentKinds]
    cases hkind : rep.methods.Kind <;> simp

/-- Witness for C3: a float-kinded map key makes `asPathSegment` panic. -/
theorem asPathSegment_panics_iff_witness :
    (resolvedView floatNode).methods.Kind ∈ nonSegmentKinds ∧
    asPathSegment floatNode = .error (Fault.cannotGetPathSegment Kind.Float) :=
  ⟨by decide, (asPathSegment_panics_iff floatNode).2.2 (by decide)⟩

/-! ### `Config.init` -/

/-- After `Config.init` the Ctx is set: the one supplied, or the background context. -/
theorem Config.init_Ctx (c : Config) :
    c.init.Ctx = some (c.Ctx.getD Context.background) := by
  cases c with
  | mk ctx ld ch vo dl => cases ctx <;> cases ch <;> rfl

/-- After `Config.init` the prototype chooser is set: the one supplied, or the default. -/
theorem Config.init_chooser (c : Config) :
    c.init.LinkTargetNodePrototypeChooser
      = some (c.LinkTargetNodePrototypeChooser.getD defaultChooser) := by
  cases c with
  | mk ctx ld ch vo dl => cases ctx <;> cases ch <;> rfl

/-- The fields that `Config.init` does not assign keep their values. -/
theorem Config.init_rest (c : Config) :
    c.init.LinkLoader = c.LinkLoader ∧
    c.init.LinkVisitOnlyOnce = c.LinkVisitOnlyOnce ∧
    c.init.LinkDepthLimit = c.LinkDepthLimit := by
  cases c with
  | mk ctx ld ch vo dl => cases ctx <;> cases ch <;> exact ⟨rfl, rfl, rfl⟩

/-- Running `Config.init` twice is the same as running it once. -/
theorem Config.init_idem (c : Config) : c.init.init = c.init := by
  cases c with
  | mk ctx ld ch vo dl => cases ctx <;> cases ch <;> rfl

/-- Closed form of `Progress.init`: it always returns normally. -/
theorem Progress.init_eq (p : Progress) :
    p.init = .ok
      { Cfg := some (p.Cfg.getD Config.zero).init
        Path := p.Path
        LinkDepth := p.LinkDepth
        SeenLinks := if p.visitOnlyOnce then some ∅ else p.SeenLinks } := by
  cases p with
  | mk cfg path depth seen =>
    cases cfg with
    | none => rfl
    | some c =>
      have hv := (Config.init_rest c).2.1
      cases hvo : c.LinkVisitOnlyOnce <;>
        simp [Progress.init, Config.initAt, Progress.visitOnlyOnce, hv, hvo]

/-- C4: when the caller supplied no prototype chooser, `Config.init` installs
one that, for every link and link context, returns the declared link-target
prototype and no error if the link context's LinkNode is a typed link node,
and returns no prototype and the error
"no LinkTargetNodePrototypeChooser configured" otherwise (LinkNode nil, or not
a typed link node). -/
theorem Config.init_default_chooser (c : Config) (lnk : Link) (lnkCtx : LinkContext)
    (h : c.LinkTargetNodePrototypeChooser = none) :
    ∃ choose, c.init.LinkTargetNodePrototypeChooser = some choose ∧
      choose lnk lnkCtx =
        match lnkCtx.LinkNode.bind Node.asTypedLinkNode with
        | some proto => (proto, none)
        | none => (none, some noChooserError) := by
  refine ⟨defaultChooser, ?_, ?_⟩
  · rw [Config.init_chooser, h]; rfl
  · cases hn : lnkCtx.LinkNode with
    | none => simp [defaultChooser, hn, noChooserError]
    | some nd =>
      cases ht : nd.asTypedLinkNode <;>
        simp [defaultChooser, hn, ht, noChooserError]

/-- Witness for C4: on the zero Configuration the installed chooser returns the
declared prototype for a typed link node. -/
theorem Config.init_default_chooser_witness :
    Config.zero.LinkTargetNodePrototypeChooser = none ∧
    ∃ choose, Config.zero.init.LinkTargetNodePrototypeChooser = some choose ∧
      choose ⟨"bafy-A"⟩ ⟨[], some (typedLinkNode ⟨"Target"⟩), none⟩
        = (some ⟨"Target"⟩, none) :=
  ⟨rfl, Config.init_default_chooser Config.zero ⟨"bafy-A"⟩
    ⟨[], some (typedLinkNode ⟨"Target"⟩), none⟩ rfl⟩

/-- C5: `Config.init` fills the unset fields with defaults and does nothing
else: Ctx becomes the background context exactly when it was absent and is kept
otherwise, the prototype chooser becomes the default chooser exactly when it
was absent and is kept otherwise, and the link loader, visitOnlyOnce and the
link-depth limit are unchanged (an unset loader stays unset). -/
theorem Config.init_fills_defaults (c : Config) :
    (c.init.Ctx = match c.Ctx with
      | none => some Context.background
      | some ctx => some ctx) ∧
    (c.init.LinkTargetNodePrototypeChooser =
      match c.LinkTargetNodePrototypeChooser with
      | none => some defaultChooser
      | some choose => some choose) ∧
    c.init.LinkLoader = c.LinkLoader ∧
    c.init.LinkVisitOnlyOnce = c.LinkVisitOnlyOnce ∧
    c.init.LinkDepthLimit = c.LinkDepthLimit ∧
    c.init = { c with
      Ctx := some (c.Ctx.getD Context.background)
      LinkTargetNodePrototypeChooser :=
        some (c.LinkTargetNodePrototypeChooser.getD defaultChooser) } := by
  cases c with
  | mk ctx ld ch vo dl => cases ctx <;> cases ch <;> exact ⟨rfl, rfl, rfl, rfl, rfl, rfl⟩

/-! ### `Progress.init` -/

/-- C6: for every Progress whose seenLinks is absent, `Progress.init` succeeds
and afterwards seenLinks is present and empty if the Configuration has
visitOnlyOnce set, and still absent if it is not set or there was no
Configuration. -/
theorem Progress.init_allocates_seenLinks (p : Progress) (h : p.SeenLinks = none) :
    ∃ q, p.init = .ok q ∧
      q.SeenLinks = if p.visitOnlyOnce then some ∅ else none := by
  refine ⟨_, Progress.init_eq p, ?_⟩
  simp [h]

/-- Witness for C6: a fresh Progress with visit-once enabled gets an empty set. -/
theorem Progress.init_allocates_seenLinks_witness :
    ∃ q, Progress.init ⟨some visitOnceConfig, [], 0, none⟩ = .ok q ∧
      q.SeenLinks = if Progress.visitOnlyOnce ⟨some visitOnceConfig, [], 0, none⟩
        then some ∅ else none :=
  Progress.init_allocates_seenLinks ⟨some visitOnceConfig, [], 0, none⟩ rfl

/-- Counterexample for C7: a Progress with visitOnlyOnce enabled that records
the link `bafy-A` no longer records it after `Progress.init`. -/
theorem Progress.init_forgets_seen_link :
    midWalkProgress.visitOnlyOnce = true ∧
    midWalkProgress.hasSeen ⟨"bafy-A"⟩ = true ∧
    (midWalkProgress.init.toOption.map fun q => q.hasSeen ⟨"bafy-A"⟩) = some false := by
  refine ⟨rfl, by decide, ?_⟩
  rw [Progress.init_eq]
  decide

/-- C7 as amended: with visitOnlyOnce enabled `Progress.init` always installs a
fresh empty seenLinks set, so it records no link afterwards; with visitOnlyOnce
not enabled it leaves seenLinks as it was, so a recorded link stays recorded. -/
theorem Progress.init_seenLinks (p : Progress) (l : Link) :
    ∃ q, p.init = .ok q ∧
      (p.visitOnlyOnce = true → q.SeenLinks = some ∅ ∧ q.hasSeen l = false) ∧
      (p.visitOnlyOnce = false →
        q.SeenLinks = p.SeenLinks ∧ q.hasSeen l = p.hasSeen l) := by
  refine ⟨_, Progress.init_eq p, ?_, ?_⟩
  · intro h
    simp [h, Progress.hasSeen]
  · intro h
    simp [h, Progress.hasSeen]

/-- Witness for C7 as amended, on a Progress that records `bafy-A`. -/
theorem Progress.init_seenLinks_witness :
    ∃ q, midWalkProgress.init = .ok q ∧
      (midWalkProgress.visitOnlyOnce = true →
        q.SeenLinks = some ∅ ∧ q.hasSeen ⟨"bafy-A"⟩ = false) ∧
      (midWalkProgress.visitOnlyOnce = false →
        q.SeenLinks = midWalkProgress.SeenLinks ∧
          q.hasSeen ⟨"bafy-A"⟩ = midWalkProgress.hasSeen ⟨"bafy-A"⟩) :=
  Progress.init_seenLinks midWalkProgress ⟨"bafy-A"⟩

/-- C8: initialising an initialised Configuration changes nothing,
`init (init c) = init c`, and `Progress.init` on a Progress that holds the
initialised Configuration succeeds and leaves that Configuration as it was. -/
theorem Config.init_stable (c : Config) (p : Progress) (h : p.Cfg = some c.init) :
    c.init.init = c.init ∧ ∃ q, p.init = .ok q ∧ q.Cfg = some c.init := by
  refine ⟨Config.init_idem c, _, Progress.init_eq p, ?_⟩
  simp [h, Config.init_idem]

/-- Witness for C8, on the visit-once Configuration. -/
theorem Config.init_stable_witness :
    midWalkProgress.Cfg = some visitOnceConfig.init ∧
    visitOnceConfig.init.init = visitOnceConfig.init ∧
    ∃ q, midWalkProgress.init = .ok q ∧ q.Cfg = some visitOnceConfig.init :=
  ⟨rfl, Config.init_stable visitOnceConfig midWalkProgress rfl⟩

/-- C9: `Progress.init` completes without a fault on every Progress, also one
whose Configuration pointer is nil, and afterwards the Progress holds a
Configuration whose Ctx and prototype chooser are both set. -/
theorem Progress.init_safe (p : Progress) :
    ∃ q cfg, p.init = .ok q ∧ q.Cfg = some cfg ∧
      cfg.Ctx.isSome = true ∧ cfg.LinkTargetNodePrototypeChooser.isSome = true := by
  refine ⟨_, _, Progress.init_eq p, rfl, ?_, ?_⟩
  · rw [Config.init_Ctx]; rfl
  · rw [Config.init_chooser]; rfl

end Traversal

/-! ## Properties of `commands/crazytest.go` -/

namespace Commands

/-- The comparison computed by `GoString.lt` is the lexicographic order of the
bytes. -/
theorem GoString.lt_iff_lex : ∀ a b : GoString,
    GoString.lt a b = true ↔ List.Lex (· < ·) a b
  | [], [] => by simp [GoString.lt, List.Lex.not_nil_right]
  | [], b :: bs => by simp [GoString.lt, List.Lex.nil]
  | a :: as, [] => by simp [GoString.lt, List.Lex.not_nil_right]
  | a :: as, b :: bs => by
    unfold GoString.lt
    by_cases hab : a < b
    · simp [hab, List.Lex.rel hab]
    · by_cases hba : b < a
      · have hne : a ≠ b := fun h => hab (h ▸ hba |> fun h2 => absurd h2 (h ▸ lt_irrefl b))
        simp only [hab, hba, if_false, if_true]
        constructor
        · intro h; cases h
        · intro h
          cases h with
          | cons h2 => exact absurd rfl hne
          | rel h2 => exact absurd h2 hab
      · have heq : a = b := le_antisymm (not_lt.mp hba) (not_lt.mp hab)
        subst heq
        simp only [hab, if_false]
        rw [GoString.lt_iff_lex as bs]
        exact (List.Lex.cons_iff).symm

/-- Insertion adds exactly the inserted string. -/
theorem insertString_perm (s : GoString) : ∀ l : List GoString,
    (insertString s l).Perm (s :: l)
  | [] => List.Perm.refl _
  | t :: ts => by
    unfold insertString
    split
    · exact List.Perm.refl _
    · exact ((insertString_perm s ts).cons t).trans (List.Perm.swap s t ts)

/-- The sorted slice is a permutation of the input. -/
theorem sortStrings_perm : ∀ l : List GoString, (sortStrings l).Perm l
  | [] => List.Perm.refl _
  | s :: ss => (insertString_perm s (sortStrings ss)).trans ((sortStrings_perm ss).cons s)

/-- Insertion into an ascending slice gives an ascending slice. -/
theorem insertString_ascending (s : GoString) : ∀ l : List GoString,
    Ascending l → Ascending (insertString s l)
  | [], _ => by simp [insertString, Ascending]
  | t :: ts, h => by
    unfold Ascending at h ⊢
    rw [List.pairwise_cons] at h
    unfold insertString
    split
    · rename_i hlt
      have hst : List.Lex (· < ·) s t := (GoString.lt_iff_lex s t).mp hlt
      refine List.pairwise_cons.mpr ⟨?_, List.pairwise_cons.mpr h⟩
      intro u hu
      rcases List.mem_cons.mp hu with rfl | hu
      · exact Or.inr hst
      · rcases h.1 u hu with rfl | htu
        · exact Or.inr hst
        · exact Or.inr (IsTrans.trans _ _ _ hst htu)
    · rename_i hlt
      have hns : ¬ List.Lex (· < ·) s t := fun hl => hlt ((GoString.lt_iff_lex s t).mpr hl)
      refine List.pairwise_cons.mpr ⟨?_, insertString_ascending s ts h.2⟩
      intro u hu
      rcases List.mem_cons.mp ((insertString_perm s ts).mem_iff.mp hu) with rfl | hu
      · rcases (List.Lex.isTrichotomous (fun x y : Byte => x < y)).trichotomous t u with h1 | h1 | h1
        · exact Or.inr h1
        · exact Or.inl h1
        · exact absurd h1 hns
      · exact h.1 u hu

/-- The sorted slice is ascending. -/
theorem sortStrings_ascending : ∀ l : List GoString, Ascending (sortStrings l)
  | [] => List.Pairwise.nil
  | s :: ss => insertString_ascending s _ (sortStrings_ascending ss)

/-- The ascending permutation of a slice is unique, so every correct sorting
routine returns what `sortStrings` returns. -/
theorem sortStrings_unique (l out : List GoString) (hs : Ascending out) (hp : out.Perm l) :
    out = sortStrings l := by
  haveI : IsAntisymm GoString (fun a b => a = b ∨ List.Lex (· < ·) a b) :=
    ⟨fun a b h1 h2 => by
      rcases h1 with h | h
      · exact h
      · rcases h2 with h2 | h2
        · exact h2.symm
        · exact absurd h2 (asymm h)⟩
  exact List.eq_of_perm_of_sorted (hp.trans (sortStrings_perm l).symm) hs
    (sortStrings_ascending l)

/-- The append loop adds the string form of every address, in order. -/
theorem appendAddresses_Addresses : ∀ (addrs : List Multiaddr) (info : CrazyTestOutput),
    (appendAddresses info addrs).Addresses = info.Addresses ++ addrs.map Multiaddr.String
  | [], info => by simp [appendAddresses]
  | a :: as, info => by
    have ih := appendAddresses_Addresses as
      { info with Addresses := info.Addresses ++ [a.String] }
    simp only [appendAddresses, List.foldl_cons] at ih ⊢
    rw [ih]
    simp

/-- Appending to an empty Addresses field and sorting gives an ascending
permutation of the string forms. -/
theorem sorted_appended_addresses (info : CrazyTestOutput) (addrs : List Multiaddr)
    (h : info.Addresses = []) :
    Ascending (sortStrings (appendAddresses info addrs).Addresses) ∧
    (sortStrings (appendAddresses info addrs).Addresses).Perm (addrs.map Multiaddr.String) := by
  refine ⟨sortStrings_ascending _, ?_⟩
  have hp := sortStrings_perm (appendAddresses info addrs).Addresses
  rw [appendAddresses_Addresses, h, List.nil_append] at hp
  rw [appendAddresses_Addresses, h, List.nil_append]
  exact hp

/-- C10: whenever `crazyTestPrintPeer`, called with a non-empty peer ID, or
`crazyTestPrintSelf`, called on a node that has a host, returns an output, the
address lookup for that peer succeeded and the Addresses of the output are in
ascending byte-wise lexicographic order and are a permutation of the string
forms of the addresses that the lookup returned. -/
theorem crazyTestPrint_addresses_sorted_perm :
    (∀ (libs : Libs) (keyEnc : KeyEncoder) (ps : Peerstore) (p : PeerID)
        (out : CrazyTestOutput),
      p ≠ [] → crazyTestPrintPeer libs keyEnc ps p = .ok out →
      ∃ addrs, libs.AddrInfoToP2pAddrs (ps.PeerInfo p) = .ok addrs ∧
        Ascending out.Addresses ∧
        out.Addresses.Perm (addrs.map Multiaddr.String)) ∧
    (∀ (libs : Libs) (keyEnc : KeyEncoder) (node : IpfsNode) (h : Host)
        (out : CrazyTestOutput),
      node.PeerHost = some h → crazyTestPrintSelf libs keyEnc node = .ok out →
      ∃ addrs, libs.AddrInfoToP2pAddrs (libs.InfoFromHost h) = .ok addrs ∧
        Ascending out.Addresses ∧
        out.Addresses.Perm (addrs.map Multiaddr.String)) := by
  constructor
  · intro libs keyEnc ps p out hp hrun
    simp only [crazyTestPrintPeer, if_neg hp] at hrun
    cases hlook : libs.AddrInfoToP2pAddrs (ps.PeerInfo p) with
    | error e =>
      cases hk : ps.PubKey p with
      | none => simp [hk, hlook] at hrun
      | some pk =>
        cases hm : libs.MarshalPublicKey pk <;> simp [hk, hm, hlook] at hrun
    | ok addrs =>
      refine ⟨addrs, rfl, ?_⟩
      cases hk : ps.PubKey p with
      | none =>
        simp only [hk, hlook, Except.ok.injEq] at hrun
        subst hrun
        exact sorted_appended_addresses _ addrs rfl
      | some pk =>
        cases hm : libs.MarshalPublicKey pk with
        | error e => simp [hk, hm] at hrun
        | ok pkb =>
          simp only [hk, hm, hlook, Except.ok.injEq] at hrun
          subst hrun
          exact sorted_appended_addresses _ addrs rfl
  · intro libs keyEnc node h out hh hrun
    simp only [crazyTestPrintSelf, hh] at hrun
    cases hpriv : node.PrivateKey with
    | none => simp [hpriv] at hrun
    | some priv =>
      cases hm : libs.MarshalPublicKey priv.GetPublic with
      | error e => simp [hpriv, hm] at hrun
      | ok pkb =>
        cases hlook : libs.AddrInfoToP2pAddrs (libs.InfoFromHost h) with
        | error e => simp [hpriv, hm, hlook] at hrun
        | ok addrs =>
          refine ⟨addrs, rfl, ?_⟩
          simp only [hpriv, hm, hlook, Except.ok.injEq] at hrun
          subst hrun
          exact sorted_appended_addresses _ addrs rfl

/-- Witness for C10: both printers succeed on the sample values, where the
three addresses are out of order and one is repeated. -/
theorem crazyTestPrint_addresses_sorted_perm_witness :
    (([81] : PeerID) ≠ [] ∧
      crazyTestPrintPeer sampleLibs sampleKeyEncoder samplePeerstore [81]
        = .ok samplePeerOutput ∧
      ∃ addrs, sampleLibs.AddrInfoToP2pAddrs (samplePeerstore.PeerInfo [81]) = .ok addrs ∧
        Ascending samplePeerOutput.Addresses ∧
        samplePeerOutput.Addresses.Perm (addrs.map Multiaddr.String)) ∧
    (sampleNode.PeerHost = some ⟨[81, 109], sampleAddrs⟩ ∧
      crazyTestPrintSelf sampleLibs sampleKeyEncoder sampleNode = .ok sampleSelfOutput ∧
      ∃ addrs, sampleLibs.AddrInfoToP2pAddrs
          (sampleLibs.InfoFromHost ⟨[81, 109], sampleAddrs⟩) = .ok addrs ∧
        Ascending sampleSelfOutput.Addresses ∧
        sampleSelfOutput.Addresses.Perm (addrs.map Multiaddr.String)) :=
  ⟨⟨by decide, rfl,
      crazyTestPrint_addresses_sorted_perm.1 sampleLibs sampleKeyEncoder samplePeerstore
        [81] samplePeerOutput (by decide) rfl⟩,
    ⟨rfl, rfl,
      crazyTestPrint_addresses_sorted_perm.2 sampleLibs sampleKeyEncoder sampleNode
        ⟨[81, 109], sampleAddrs⟩ sampleSelfOutput rfl rfl⟩⟩

end Commands
